import Mathlib

/-! Verification of the grid simulation engine of the `atc` repository:
    tile, exit and route placement, plane physics, and the per-tick
    outcome state machine (src/world.rs, src/plane.rs, src/error.rs).
    Machine integers (`usize`, `u8`, `i32`) are modelled as `Nat`/`Int`;
    `usize` is 64 bits wide where bit-level behaviour matters.
    Rust panics (`panic!`, `todo!`) are modelled as distinguished
    `panicked` result constructors. -/

namespace Atc

/-- The modulus of 64-bit `usize` values. -/
def USIZE : Nat := 2 ^ 64

/-- Rust `usize::checked_sub`. -/
def checkedSub (n m : Nat) : Option Nat :=
  if m ≤ n then some (n - m) else none

/-- Rust `usize::checked_add` on 64-bit `usize`. -/
def checkedAdd (n m : Nat) : Option Nat :=
  if n + m < USIZE then some (n + m) else none

/-- Rust bitwise complement on 64-bit `usize` (for arguments below the
    modulus). -/
def notUsize (n : Nat) : Nat := USIZE - 1 - n

/-- Grid position (src/world.rs, struct Pos). -/
structure Pos where
  x : Nat
  y : Nat
deriving DecidableEq, Repr

/-- Plane kinds (src/world.rs, enum PlaneKind). -/
inductive PlaneKind
  | Small
  | Jet
deriving DecidableEq, Repr

/-- Grid wall directions (src/world.rs, enum DirectionGrid). -/
inductive DirectionGrid
  | Up
  | Down
  | Left
  | Right
deriving DecidableEq, Repr

/-- The eight compass headings (src/world.rs, enum DirectionCardinal). -/
inductive DirectionCardinal
  | North
  | East
  | South
  | West
  | NorthEast
  | NorthWest
  | SouthEast
  | SouthWest
deriving DecidableEq, Repr

/-- Plane destinations (src/plane.rs, enum Destination). -/
inductive Destination
  | Exit (id : Nat)
  | Airport (id : Nat)
deriving DecidableEq, Repr

/-- World tiles (src/world.rs, enum WorldTile). -/
inductive WorldTile
  | Empty
  | Route
  | Airport (dir : DirectionGrid) (id : Nat)
  | Beacon (id : Nat)
deriving DecidableEq, Repr

/-- Exit records (src/world.rs, struct Exit). -/
structure Exit where
  wall_direction : DirectionGrid
  plane_out_direction : DirectionCardinal
  wall_pos : Nat
deriving DecidableEq, Repr

/-- Plane state (src/plane.rs, struct Plane). -/
structure Plane where
  pos : Pos
  height : Nat
  direction : DirectionCardinal
  kind : PlaneKind
  id : Char
  ticks : Nat
  destination : Destination
  just_spawned : Bool
deriving DecidableEq, Repr

/-- Engine errors (src/error.rs, enum Error). -/
inductive Error
  | PlaneNextPosBad (id : Char)
  | ExitPosOutOfBounds (a b : Nat)
  | PosOutOfBounds (a b : Nat)
  | NoExitForID (id : Nat)
  | PosFromSigned (p : Int × Int)
deriving DecidableEq, Repr

/-- Tick outcomes (src/world.rs, enum State). The source spells the
    ongoing variant `Onging`. -/
inductive State
  | Onging
  | PlaneCollision (a b : Plane)
  | WrongExit (p : Plane) (id : Nat)
  | WrongAirport (p : Plane) (id : Nat)
  | PlaneTouchesWall (p : Plane) (d : DirectionGrid) (off : Nat)
  | PlaneCrash (p : Plane)
  | PlaneNoFuel (p : Plane)
deriving DecidableEq, Repr

/-- The world aggregate (src/world.rs, struct World). The two hash maps
    (`planes`, `exits`) are modelled as association lists with a fixed
    deterministic iteration order. -/
structure World where
  x : Nat
  y : Nat
  tiles : List (List WorldTile)
  planes : List (Char × Plane)
  exits : List (Nat × Exit)
  plane_counter : Nat
deriving DecidableEq, Repr

/-- HashMap insert: replaces any existing binding for the key. -/
def insertA {α β : Type} [DecidableEq α] (k : α) (v : β) (l : List (α × β)) :
    List (α × β) :=
  (k, v) :: l.filter (fun p => decide (p.1 ≠ k))

/-- HashMap lookup. -/
def lookupA {α β : Type} [DecidableEq α] (k : α) (l : List (α × β)) : Option β :=
  (l.find? (fun p => decide (p.1 = k))).map (fun p => p.2)

/-- HashMap remove. -/
def removeKey {α β : Type} [DecidableEq α] (k : α) (l : List (α × β)) :
    List (α × β) :=
  l.filter (fun p => decide (p.1 ≠ k))

/-- Replace the value bound to a key, keeping the map's shape (models
    in-place mutation through `values_mut`). -/
def updateA {α β : Type} [DecidableEq α] (k : α) (v : β) (l : List (α × β)) :
    List (α × β) :=
  l.map (fun p => if p.1 = k then (k, v) else p)

/-- Reverse a heading (src/world.rs, DirectionCardinal::opposite). -/
def DirectionCardinal.opposite : DirectionCardinal → DirectionCardinal
  | .North => .South
  | .East => .West
  | .South => .North
  | .West => .East
  | .NorthEast => .SouthWest
  | .NorthWest => .SouthEast
  | .SouthEast => .NorthWest
  | .SouthWest => .NorthEast

/-- Wall direction to heading (src/world.rs, impl From DirectionGrid for
    DirectionCardinal). -/
def DirectionGrid.toCardinal : DirectionGrid → DirectionCardinal
  | .Up => .North
  | .Down => .South
  | .Left => .West
  | .Right => .East

/-- Whether a heading is one of the four diagonals. -/
def DirectionCardinal.isDiagonal : DirectionCardinal → Bool
  | .NorthEast => true
  | .NorthWest => true
  | .SouthEast => true
  | .SouthWest => true
  | _ => false

/-- Spawn height of new planes (src/plane.rs, START_HEIGHT). -/
def START_HEIGHT : Nat := 7

/-- Height required to take an exit (src/plane.rs, EXIT_HEIGHT). -/
def EXIT_HEIGHT : Nat := 9

/-- Plane constructor (src/plane.rs, Plane::new). Small planes get an
    uppercase id, jets a lowercase id. -/
def Plane.new (pos : Pos) (direction : DirectionCardinal) (kind : PlaneKind)
    (id : Char) (destination : Destination) : Plane :=
  { pos := pos
    height := START_HEIGHT
    direction := direction
    kind := kind
    id := match kind with
          | .Small => id.toUpper
          | .Jet => id.toLower
    ticks := 0
    destination := destination
    just_spawned := true }

/-- Movement step (src/plane.rs, the nested fn do_stuff inside
    Plane::next_pos). Only the position is mutated; the Bool records
    whether every checked arithmetic step succeeded. A failed second
    step of a diagonal move leaves the first step's mutation in place,
    exactly as in the source. -/
def do_stuff (p : Plane) : Pos × Bool :=
  match p.direction with
  | .North =>
    match checkedSub p.pos.y 1 with
    | none => (p.pos, false)
    | some v => ({ p.pos with y := v }, true)
  | .NorthEast =>
    match checkedSub p.pos.y 1 with
    | none => (p.pos, false)
    | some v =>
      match checkedAdd p.pos.x 1 with
      | none => ({ p.pos with y := v }, false)
      | some u => ({ x := u, y := v }, true)
  | .NorthWest =>
    match checkedSub p.pos.y 1 with
    | none => (p.pos, false)
    | some v =>
      match checkedSub p.pos.x 1 with
      | none => ({ p.pos with y := v }, false)
      | some u => ({ x := u, y := v }, true)
  | .South =>
    match checkedAdd p.pos.y 1 with
    | none => (p.pos, false)
    | some v => ({ p.pos with y := v }, true)
  | .SouthEast =>
    match checkedAdd p.pos.y 1 with
    | none => (p.pos, false)
    | some v =>
      match checkedAdd p.pos.x 1 with
      | none => ({ p.pos with y := v }, false)
      | some u => ({ x := u, y := v }, true)
  | .SouthWest =>
    match checkedAdd p.pos.y 1 with
    | none => (p.pos, false)
    | some v =>
      match checkedSub p.pos.x 1 with
      | none => ({ p.pos with y := v }, false)
      | some u => ({ x := u, y := v }, true)
  | .West =>
    match checkedSub p.pos.x 1 with
    | none => (p.pos, false)
    | some u => ({ p.pos with x := u }, true)
  | .East =>
    match checkedAdd p.pos.x 1 with
    | none => (p.pos, false)
    | some u => ({ p.pos with x := u }, true)

/-- Plane movement (src/plane.rs, Plane::next_pos). -/
def Plane.next_pos (p : Plane) : Plane × Option Error :=
  let r := do_stuff p
  ({ p with pos := r.1 },
   if r.2 then none else some (.PlaneNextPosBad p.id))

/-- Fuel exhaustion (src/plane.rs, Plane::out_of_fuel). -/
def Plane.out_of_fuel (p : Plane) : Bool :=
  decide (p.ticks ≥ (match p.kind with
                     | .Jet => 120
                     | .Small => 50))

/-- Movement cadence (src/plane.rs, Plane::moves_this_tick). -/
def Plane.moves_this_tick (p : Plane) : Bool :=
  decide (p.ticks % (match p.kind with
                     | .Jet => 1
                     | .Small => 2) = 0)

/-- One plane tick (src/plane.rs, Plane::tick). The Bool is the Result:
    false means Err (no fuel left). The source calls next_pos and drops
    the returned Result, so a bad next position is not reported here. -/
def Plane.tick (p : Plane) : Plane × Bool :=
  let p1 : Plane := { p with ticks := p.ticks + 1 }
  if p1.out_of_fuel then (p1, false)
  else
    let p2 : Plane := if p1.moves_this_tick then (p1.next_pos).1 else p1
    let p3 : Plane := if p2.ticks = 2 then { p2 with just_spawned := false }
                      else p2
    (p3, true)

/-- Iterate Plane::tick, keeping the plane. -/
def tickN : Nat → Plane → Plane
  | 0, p => p
  | k + 1, p => tickN k (p.tick).1

/-- World constructor (src/world.rs, World::new). -/
def World.new (x y : Nat) : World :=
  { x := x
    y := y
    tiles := List.replicate y (List.replicate x WorldTile.Empty)
    planes := []
    exits := []
    plane_counter := 0 }

/-- Exit placement (src/world.rs, World::place_exit). The source's
    bounds check reads `if !wall_pos < self.y` (resp. `self.x`): the `!`
    binds to `wall_pos` and is the bitwise complement of the usize
    offset, modelled by `notUsize`. -/
def World.place_exit (w : World) (where_on_wall : DirectionGrid)
    (plane_out_direction : DirectionCardinal) (wall_pos : Nat) (idx : Nat) :
    World × Option Error :=
  let bound := match where_on_wall with
               | .Up => w.y
               | .Down => w.y
               | .Left => w.x
               | .Right => w.x
  if notUsize wall_pos < bound then
    (w, some (.ExitPosOutOfBounds wall_pos bound))
  else
    ({ w with
       exits := insertA idx
         (Exit.mk where_on_wall plane_out_direction wall_pos) w.exits },
     none)

/-- Bounds check (src/world.rs, World::check_pos_bounds). -/
def World.check_pos_bounds (w : World) (pos : Pos) : Option Error :=
  if pos.x + 1 > w.x then some (.PosOutOfBounds pos.x w.x)
  else if pos.y + 1 > w.y then some (.PosOutOfBounds pos.y w.y)
  else none

/-- Write one cell of the tile matrix (the assignment
    `self.tiles[pos.y][pos.x] = tile`). -/
def update2 (tiles : List (List WorldTile)) (pos : Pos) (tile : WorldTile) :
    List (List WorldTile) :=
  match tiles.get? pos.y with
  | some row => tiles.set pos.y (row.set pos.x tile)
  | none => tiles

/-- Tile placement (src/world.rs, World::place_tile). -/
def World.place_tile (w : World) (tile : WorldTile) (pos : Pos) :
    World × Option Error :=
  match w.check_pos_bounds pos with
  | some e => (w, some e)
  | none => ({ w with tiles := update2 w.tiles pos tile }, none)

/-- Rasterizer inner loop (src/world.rs, the `for x in 0..dx + 1` loop of
    World::place_route_in_line), threading the mutable world. -/
def routeLoop (a : Pos) (xx xy yx yy : Int) (dxM dyM : Nat) :
    Nat → Nat → Int → Int → World → World × Option Error
  | 0, _, _, _, w => (w, none)
  | n + 1, t, d, y, w =>
    let px : Int := (a.x : Int) + (t : Int) * xx + y * yx
    let py : Int := (a.y : Int) + (t : Int) * xy + y * yy
    if 0 ≤ px ∧ 0 ≤ py then
      match (w.place_tile .Route { x := px.toNat, y := py.toNat }) with
      | (w1, some e) => (w1, some e)
      | (w1, none) =>
        if 0 ≤ d then
          routeLoop a xx xy yx yy dxM dyM n (t + 1)
            (d - 2 * (dxM : Int) + 2 * (dyM : Int)) (y + 1) w1
        else
          routeLoop a xx xy yx yy dxM dyM n (t + 1) (d + 2 * (dyM : Int)) y w1
    else (w, some (.PosFromSigned (px, py)))

/-- Route rasterization (src/world.rs, World::place_route_in_line):
    bounds-check both endpoints, pick step signs and the major axis,
    then run the Bresenham loop. -/
def World.place_route_in_line (w : World) (a b : Pos) : World × Option Error :=
  match w.check_pos_bounds a with
  | some e => (w, some e)
  | none =>
    match w.check_pos_bounds b with
    | some e => (w, some e)
    | none =>
      let dx0 : Int := (b.x : Int) - (a.x : Int)
      let dy0 : Int := (b.y : Int) - (a.y : Int)
      let sx : Int := if 0 < dx0 then 1 else -1
      let sy : Int := if 0 < dy0 then 1 else -1
      if dx0.natAbs > dy0.natAbs then
        routeLoop a sx 0 0 sy dx0.natAbs dy0.natAbs (dx0.natAbs + 1) 0
          (2 * (dy0.natAbs : Int) - (dx0.natAbs : Int)) 0 w
      else
        routeLoop a 0 sy sx 0 dy0.natAbs dx0.natAbs (dy0.natAbs + 1) 0
          (2 * (dx0.natAbs : Int) - (dy0.natAbs : Int)) 0 w

/-- The fixed 25-symbol plane id alphabet (src/world.rs,
    World::next_plane_idx). -/
def ORDER : List Char :=
  ['a', 'b', 'c', 'd', 'e', 'f', 'g', 'h', 'i', 'j', 'k', 'l', 'm',
   'n', 'p', 'q', 'r', 's', 't', 'u', 'v', 'w', 'x', 'y', 'z']

/-- Plane id assignment (src/world.rs, World::next_plane_idx). The
    counter is a u8 and wraps at 256. -/
def World.next_plane_idx (w : World) : World × Char :=
  ({ w with plane_counter := (w.plane_counter + 1) % 256 },
   ORDER.getD (w.plane_counter % 25) 'a')

/-- Result of spawn_plane_at_exit; `panicked` models the `todo!()`
    reached for diagonal departure headings. -/
inductive SpawnResult
  | ok (w : World)
  | err (e : Error)
  | panicked
deriving DecidableEq, Repr

/-- Plane spawning (src/world.rs, World::spawn_plane_at_exit). -/
def World.spawn_plane_at_exit (w : World) (exit_id : Nat) (kind : PlaneKind) :
    SpawnResult :=
  match lookupA exit_id w.exits with
  | none => .err (.NoExitForID exit_id)
  | some exit =>
    let pos? : Option Pos :=
      match exit.plane_out_direction with
      | .North => some { x := exit.wall_pos, y := 0 }
      | .South => some { x := exit.wall_pos, y := w.y - 1 }
      | .West => some { x := 0, y := exit.wall_pos }
      | .East => some { x := w.x - 1, y := exit.wall_pos }
      | _ => none
    match pos? with
    | none => .panicked
    | some pos =>
      let wi := w.next_plane_idx
      let plane := Plane.new pos exit.plane_out_direction.opposite kind wi.2
        (.Exit 1)
      .ok { wi.1 with planes := insertA wi.2 plane wi.1.planes }

/-- Collision hook (src/world.rs, World::collision_check); a TODO stub
    returning None. -/
def World.collision_check (_w : World) : Option (Plane × Plane) := none

/-- Wall hook (src/world.rs, World::wall_collision_check); a TODO stub
    returning None. -/
def World.wall_collision_check (_w : World) :
    Option (Plane × DirectionGrid × Nat) := none

/-- Inner loop of World::plane_exit_check_inner: walk the exits on one
    wall; on the plane's destination exit remove the plane and keep
    going, on any other matching exit report a wrong exit. -/
def exitCheckGo (plane : Plane) (plane_pos : Nat) :
    World → List (Nat × Exit) → World × Option (Plane × Nat)
  | w, [] => (w, none)
  | w, (eid, e) :: rest =>
    if e.wall_pos = plane_pos then
      if (match plane.destination with
          | Destination.Exit dest_eid => decide (dest_eid = eid)
          | _ => false) then
        exitCheckGo plane plane_pos
          { w with planes := removeKey plane.id w.planes } rest
      else (w, some (plane, eid))
    else exitCheckGo plane plane_pos w rest

/-- Exit matching for one wall (src/world.rs,
    World::plane_exit_check_inner). -/
def World.plane_exit_check_inner (w : World) (plane : Plane)
    (wall_dir : DirectionGrid) (plane_pos : Nat) :
    World × Option (Plane × Nat) :=
  exitCheckGo plane plane_pos w
    (w.exits.filter (fun pe => decide (pe.2.wall_direction = wall_dir)))

/-- The four sequential boundary checks of World::planes_take_exits for
    one plane (`y == 0`, `y == self.y`, `x == 0`, `x == self.x`). -/
def takeExitsPlane (w : World) (plane : Plane) : World × Option (Plane × Nat) :=
  let r1 := if plane.pos.y = 0
            then w.plane_exit_check_inner plane .Up plane.pos.x
            else (w, none)
  match r1 with
  | (w1, some v) => (w1, some v)
  | (w1, none) =>
    let r2 := if plane.pos.y = w1.y
              then w1.plane_exit_check_inner plane .Down plane.pos.x
              else (w1, none)
    match r2 with
    | (w2, some v) => (w2, some v)
    | (w2, none) =>
      let r3 := if plane.pos.x = 0
                then w2.plane_exit_check_inner plane .Left plane.pos.y
                else (w2, none)
      match r3 with
      | (w3, some v) => (w3, some v)
      | (w3, none) =>
        if plane.pos.x = w3.x
        then w3.plane_exit_check_inner plane .Right plane.pos.y
        else (w3, none)

/-- Iteration of World::planes_take_exits over a clone of the plane map,
    skipping just-spawned planes. -/
def takeExitsGo : World → List (Char × Plane) → World × Option (Plane × Nat)
  | w, [] => (w, none)
  | w, (_, plane) :: rest =>
    if plane.just_spawned then takeExitsGo w rest
    else
      match takeExitsPlane w plane with
      | (w1, some v) => (w1, some v)
      | (w1, none) => takeExitsGo w1 rest

/-- Exit pass (src/world.rs, World::planes_take_exits). -/
def World.planes_take_exits (w : World) : World × Option (Plane × Nat) :=
  takeExitsGo w w.planes

/-- Result of planes_land; `panicked` models the source's `panic!` calls
    (wrong landing direction, or landing with an Exit destination). -/
inductive LandResult
  | ok (w : World) (r : Option (Plane × Option Nat))
  | panicked
deriving DecidableEq, Repr

/-- Inner loop of World::planes_land for one airport tile, iterating the
    height-0 planes of a clone of the plane map. A facing mismatch or an
    Exit destination panics; the plane is removed when `dest_aid !=
    actual_aid` (the source's condition, as written). -/
def landPlanesAt (x y : Nat) (airdir : DirectionGrid) (actual_aid : Nat) :
    World → List (Char × Plane) → LandResult
  | w, [] => .ok w none
  | w, (pid, plane) :: rest =>
    if plane.pos = { x := x, y := y } then
      match plane.destination with
      | .Airport dest_aid =>
        if airdir.toCardinal ≠ plane.direction then .panicked
        else if dest_aid ≠ actual_aid then
          landPlanesAt x y airdir actual_aid
            { w with planes := removeKey pid w.planes } rest
        else landPlanesAt x y airdir actual_aid w rest
      | .Exit _ => .panicked
    else landPlanesAt x y airdir actual_aid w rest

/-- Per-row loop of World::planes_land (enumerate cells, filter airport
    tiles). -/
def landRow (y : Nat) : World → Nat → List WorldTile → LandResult
  | w, _, [] => .ok w none
  | w, x, tile :: rest =>
    match tile with
    | .Airport airdir aid =>
      match landPlanesAt x y airdir aid w
          (w.planes.filter (fun pp => decide (pp.2.height = 0))) with
      | .ok w1 _ => landRow y w1 (x + 1) rest
      | .panicked => .panicked
    | _ => landRow y w (x + 1) rest

/-- Row iteration of World::planes_land. -/
def landRows : World → Nat → List (List WorldTile) → LandResult
  | w, _, [] => .ok w none
  | w, y, row :: rest =>
    match landRow y w 0 row with
    | .ok w1 _ => landRows w1 (y + 1) rest
    | .panicked => .panicked

/-- Landing pass (src/world.rs, World::planes_land). As written it only
    ever returns `none` or panics. -/
def World.planes_land (w : World) : LandResult :=
  landRows w 0 w.tiles

/-- Result of tick_planes; `panicked` propagates a panic from the
    landing pass. -/
inductive TickResult
  | ok (w : World) (s : State)
  | panicked
deriving DecidableEq, Repr

/-- Advance every plane (first loop of World::tick_planes); stops at the
    first plane whose tick fails with fuel exhaustion. -/
def tickAll : World → List (Char × Plane) → World × Option Plane
  | w, [] => (w, none)
  | w, (pid, plane) :: rest =>
    let r := plane.tick
    let w1 := { w with planes := updateA pid r.1 w.planes }
    if r.2 then tickAll w1 rest else (w1, some r.1)

/-- Tick orchestration (src/world.rs, World::tick_planes). -/
def World.tick_planes (w : World) : TickResult :=
  match tickAll w w.planes with
  | (w1, some plane) => .ok w1 (.PlaneNoFuel plane)
  | (w1, none) =>
    match w1.planes_take_exits with
    | (w2, some pe) => .ok w2 (.WrongExit pe.1 pe.2)
    | (w2, none) =>
      match w2.planes_land with
      | .panicked => .panicked
      | .ok w3 r =>
        match r with
        | some (plane, some airport_id) => .ok w3 (.WrongAirport plane airport_id)
        | some (plane, none) => .ok w3 (.PlaneCrash plane)
        | none =>
          match w3.collision_check with
          | some pp => .ok w3 (.PlaneCollision pp.1 pp.2)
          | none =>
            match w3.wall_collision_check with
            | some pw => .ok w3 (.PlaneTouchesWall pw.1 pw.2.1 pw.2.2)
            | none => .ok w3 .Onging

/-- Pure mirror of the rasterizer loop state: the `(t, y)` pairs (major
    offset, minor offset) the loop visits. -/
def bresSteps (dxM dyM : Nat) : Nat → Nat → Int → Int → List (Nat × Int)
  | 0, _, _, _ => []
  | n + 1, t, d, y =>
    (t, y) ::
      (if 0 ≤ d then
        bresSteps dxM dyM n (t + 1) (d - 2 * (dxM : Int) + 2 * (dyM : Int))
          (y + 1)
       else bresSteps dxM dyM n (t + 1) (d + 2 * (dyM : Int)) y)

/-- Cell of the rasterizer at major offset `k`, minor offset `m`. -/
def pointPos (a : Pos) (xx xy yx yy : Int) (k : Nat) (m : Int) : Pos :=
  { x := ((a.x : Int) + (k : Int) * xx + m * yx).toNat
    y := ((a.y : Int) + (k : Int) * xy + m * yy).toNat }

/-- Cells painted by the rasterizer for one octant configuration. -/
def bresPts (a : Pos) (xx xy yx yy : Int) (dxM dyM : Nat) : List Pos :=
  (bresSteps dxM dyM (dxM + 1) 0 (2 * (dyM : Int) - (dxM : Int)) 0).map
    (fun s => pointPos a xx xy yx yy s.1 s.2)

/-- Cells painted by place_route_in_line between two in-bounds points. -/
def linePoints (a b : Pos) : List Pos :=
  let dx0 : Int := (b.x : Int) - (a.x : Int)
  let dy0 : Int := (b.y : Int) - (a.y : Int)
  let sx : Int := if 0 < dx0 then 1 else -1
  let sy : Int := if 0 < dy0 then 1 else -1
  if dx0.natAbs > dy0.natAbs then bresPts a sx 0 0 sy dx0.natAbs dy0.natAbs
  else bresPts a 0 sy sx 0 dy0.natAbs dx0.natAbs

/-- Paint one cell with a Route tile, ignoring the error channel. -/
def paint1 (w : World) (p : Pos) : World := (w.place_tile .Route p).1

/-- Paint a list of cells with Route tiles. -/
def paintRoutes (w : World) (ps : List Pos) : World := ps.foldl paint1 w

/-- Read one cell of the tile matrix. -/
def tileAt (w : World) (p : Pos) : WorldTile :=
  (w.tiles.getD p.y []).getD p.x .Empty

/-- The tile matrix has exactly the dimensions recorded in the world. -/
def World.Wellformed (w : World) : Prop :=
  w.tiles.length = w.y ∧ ∀ r ∈ w.tiles, r.length = w.x

instance (w : World) : Decidable w.Wellformed := by
  unfold World.Wellformed; infer_instance

/-- Loop invariant of the rasterizer (meaningful for a positive major
    delta `dxM`). -/
def BresInv (dxM dyM t : Nat) (d y : Int) : Prop :=
  d = 2 * (dyM : Int) * ((t : Int) + 1) - (dxM : Int) - 2 * (dxM : Int) * y ∧
  0 ≤ y ∧
  2 * (dxM : Int) * y ≤ 2 * (dyM : Int) * (t : Int) + (dxM : Int) ∧
  2 * (dyM : Int) * (t : Int) + (dxM : Int) ≤
    2 * (dxM : Int) * y + 2 * (dxM : Int) - 1

/-- Recognize a PosOutOfBounds error. -/
def isPosOutOfBoundsErr : Option Error → Bool
  | some (.PosOutOfBounds _ _) => true
  | _ => false

/-- The plane sits on a boundary cell whose wall and offset match the
    exit, in the sense of the checks of World::planes_take_exits. -/
def boundaryMatch (w : World) (p : Plane) (e : Exit) : Prop :=
  (p.pos.y = 0 ∧ e.wall_direction = .Up ∧ e.wall_pos = p.pos.x) ∨
  (p.pos.y = w.y ∧ e.wall_direction = .Down ∧ e.wall_pos = p.pos.x) ∨
  (p.pos.x = 0 ∧ e.wall_direction = .Left ∧ e.wall_pos = p.pos.y) ∨
  (p.pos.x = w.x ∧ e.wall_direction = .Right ∧ e.wall_pos = p.pos.y)

instance (w : World) (p : Plane) (e : Exit) :
    Decidable (boundaryMatch w p e) := by
  unfold boundaryMatch; infer_instance

/-- World of the C1 scenario: 20 x 20, exit 0 on the Up (north) wall at
    offset 10 with departure heading South. -/
def c1World : World := ((World.new 20 20).place_exit .Up .South 10 0).1

/-- The plane the C1 spawn actually produces. -/
def c1Plane : Plane :=
  { pos := { x := 10, y := 19 }, height := 7, direction := .North,
    kind := .Small, id := 'A', ticks := 0, destination := .Exit 1,
    just_spawned := true }

/-- Result of the C1 spawn. -/
def c1Spawned : SpawnResult := c1World.spawn_plane_at_exit 0 .Small

/-- Expected world after the C1 spawn. The map key is the raw id 'a'
    from next_plane_idx; the plane's own id field is case-folded to 'A'
    by Plane::new. -/
def c1Expected : World :=
  { c1World with planes := [('a', c1Plane)], plane_counter := 1 }

/-- Plane of the C2 scenario: at height 0 on the airport tile, facing
    matching, destination the airport with the same id. -/
def c2Plane : Plane :=
  { pos := { x := 2, y := 2 }, height := 0, direction := .North,
    kind := .Small, id := 'A', ticks := 3, destination := .Airport 1,
    just_spawned := false }

/-- World of the C2 scenario: a 5 x 5 grid with one Airport(Up, 1) tile
    at (2, 2). -/
def c2World : World :=
  { ((World.new 5 5).place_tile (.Airport .Up 1) { x := 2, y := 2 }).1 with
    planes := [('A', c2Plane)] }

/-- C2 variant: the plane's destination airport id differs from the
    tile's id. -/
def c2WorldB : World :=
  { c2World with planes := [('A', { c2Plane with destination := .Airport 2 })] }

/-- C2 variant: the plane's destination is an Exit. -/
def c2WorldC : World :=
  { c2World with planes := [('A', { c2Plane with destination := .Exit 1 })] }

/-- Plane of the C3 scenario: at (0, 0) heading North, so its move would
    take y negative. -/
def c3PlaneNorth : Plane :=
  { pos := { x := 0, y := 0 }, height := 7, direction := .North,
    kind := .Jet, id := 'a', ticks := 0, destination := .Exit 1,
    just_spawned := false }

/-- C3 variant: at (0, 3) heading SouthWest, so the second (x) step of
    the diagonal move fails after the first (y) step succeeded. -/
def c3PlaneSW : Plane :=
  { c3PlaneNorth with
    pos := { x := 0, y := 3 }
    direction := .SouthWest }

/-- World of the C3 scenario. -/
def c3World : World := { World.new 5 5 with planes := [('a', c3PlaneNorth)] }

/-- World of the C5 witness scenario. -/
def c5W : World := World.new 20 20

/-- Endpoint A of the C5 witness. -/
def c5A : Pos := { x := 0, y := 0 }

/-- Endpoint B of the C5 witness. -/
def c5B : Pos := { x := 19, y := 19 }

/-- Out-of-bounds endpoint of the C6 witness (x = 20 on a 20-wide
    grid). -/
def c6B : Pos := { x := 20, y := 19 }

/-- Fresh Jet plane of the C7 witness. -/
def c7Jet : Plane :=
  { pos := { x := 5, y := 5 }, height := 7, direction := .East,
    kind := .Jet, id := 'a', ticks := 0, destination := .Exit 1,
    just_spawned := false }

/-- Fresh Small plane of the C7 witness. -/
def c7Small : Plane := { c7Jet with kind := .Small }

/-- Jet plane whose next tick exhausts its fuel. -/
def c7Dead : Plane := { c7Jet with ticks := 120 }

/-- World of the C7 witness for the tick_planes dispatch. -/
def c7World : World := { World.new 5 5 with planes := [('a', c7Dead)] }

/-- Plane of the C8 scenario: one cell inside the Up wall, heading
    North, destination Exit(1). -/
def c8Plane : Plane :=
  { pos := { x := 5, y := 1 }, height := 7, direction := .North,
    kind := .Jet, id := 'a', ticks := 10, destination := .Exit 1,
    just_spawned := false }

/-- The C8 plane after one tick: moved onto the boundary cell (5, 0). -/
def c8Moved : Plane := { c8Plane with pos := { x := 5, y := 0 }, ticks := 11 }

/-- Exit of the C8 scenarios, on the Up wall at offset 5. -/
def c8Exit : Exit :=
  { wall_direction := .Up, plane_out_direction := .North, wall_pos := 5 }

/-- C8 world in which the matching exit has id 2 (not the plane's
    destination id 1). -/
def c8WrongWorld : World :=
  { World.new 8 8 with planes := [('a', c8Plane)], exits := [(2, c8Exit)] }

/-- Expected world after ticking c8WrongWorld. -/
def c8WrongAfter : World := { c8WrongWorld with planes := [('a', c8Moved)] }

/-- C8 world in which the matching exit has id 1 (the destination). -/
def c8RightWorld : World :=
  { World.new 8 8 with planes := [('a', c8Plane)], exits := [(1, c8Exit)] }

/-- Expected world after ticking c8RightWorld: the plane left. -/
def c8RightAfter : World := { c8RightWorld with planes := [] }

/-- C8 witness plane already sitting on the boundary cell (5, 0). -/
def c8SitPlane : Plane := { c8Plane with pos := { x := 5, y := 0 } }

/-- C8 witness world for the exit-check step. -/
def c8SitWorld : World :=
  { World.new 8 8 with planes := [('a', c8SitPlane)], exits := [(2, c8Exit)] }

/-- World of the C9 witness: exit 0 on the Up wall, departure North. -/
def c9World : World := ((World.new 8 8).place_exit .Up .North 3 0).1

/-- Plane produced by the C9 witness spawn. -/
def c9Plane : Plane :=
  { pos := { x := 3, y := 0 }, height := 7, direction := .South,
    kind := .Small, id := 'A', ticks := 0, destination := .Exit 1,
    just_spawned := true }

/-- Expected world after the C9 witness spawn. -/
def c9SpawnedWorld : World :=
  { c9World with planes := [('a', c9Plane)], plane_counter := 1 }

/-- Exit of the C10 witness, with a diagonal departure heading. -/
def c10Exit : Exit :=
  { wall_direction := .Up, plane_out_direction := .NorthEast, wall_pos := 4 }

/-- World of the C10 witness. -/
def c10World : World := { World.new 8 8 with exits := [(0, c10Exit)] }

/-- Smoke check of the embedding against the repository's own test
    test_world_place_route_0: the 20 x 20 diagonal paints (i, i). -/
theorem smoke_route_diagonal :
    tileAt ((World.new 20 20).place_route_in_line { x := 0, y := 0 }
      { x := 19, y := 19 }).1 { x := 7, y := 7 } = .Route := by decide

/-- C1 counterexample: with exit 0 registered on the North (Up) wall at
    offset 10 with departure heading South in a 20 x 20 world,
    spawn_plane_at_exit(0, Small) succeeds but places the plane at
    (10, 19) — the bottom edge derived from the departure heading — and
    not at (10, 0) as the claim states. -/
theorem c1_spawn_position_counterexample :
    c1Spawned = .ok c1Expected ∧
    (lookupA 'a' c1Expected.planes).map Plane.pos = some { x := 10, y := 19 } ∧
    ({ x := 10, y := 19 } : Pos) ≠ { x := 10, y := 0 } := by decide

/-- C1 (amended): in a 20 x 20 world with exit 0 registered on the North
    wall at offset 10 with departure heading South, spawn_plane_at_exit
    (0, Small) succeeds and inserts a plane whose position is (10, 19) —
    the edge cell derived from the departure heading South, i.e. the
    bottom edge, not the registered wall — whose heading is North (the
    opposite of South), whose height is 7 (the start height), and whose
    just_spawned flag is true. -/
theorem c1_spawn_at_exit_amended :
    c1Spawned = .ok c1Expected ∧
    c1Plane.pos = { x := 10, y := 19 } ∧
    c1Plane.direction = .North ∧
    c1Plane.height = 7 ∧
    c1Plane.just_spawned = true := by decide

/-- C2 code behaviour at the failing input: a plane at height 0 on an
    Airport(Up, 1) tile, facing matching, destination Airport(1), is NOT
    removed by the landing pass (the source removes exactly when the ids
    differ, inverting the successful-landing condition); with
    destination Airport(2) the plane IS removed; with an Exit destination
    the landing pass panics, as the claim states. -/
theorem c2_landing_removal_inverted :
    c2World.planes_land = .ok c2World none ∧
    lookupA 'A' c2World.planes = some c2Plane ∧
    c2WorldB.planes_land = .ok { c2WorldB with planes := [] } none ∧
    c2WorldC.planes_land = .panicked := by decide

/-- C3 code behaviour at the failing input: for a plane at (0, 0)
    heading North, next_pos does produce the PlaneNextPosBad error, but
    Plane::tick discards it and reports success with the position
    unchanged, and tick_planes resolves the tick to Onging rather than a
    terminal outcome; moreover a SouthWest move from (0, 3) partially
    updates the position to (0, 4) before the failing x-step. -/
theorem c3_next_pos_error_swallowed :
    (c3PlaneNorth.next_pos).2 = some (.PlaneNextPosBad 'a') ∧
    c3PlaneNorth.tick = ({ c3PlaneNorth with ticks := 1 }, true) ∧
    (c3PlaneSW.tick).2 = true ∧
    ((c3PlaneSW.tick).1).pos = { x := 0, y := 4 } ∧
    c3World.tick_planes =
      .ok { c3World with planes := [('a', { c3PlaneNorth with ticks := 1 })] }
        .Onging := by decide

/-- C4 code behaviour at the failing input: on a 20 x 20 world,
    place_exit(Up, South, 100, 0) succeeds and stores the exit even
    though offset 100 is outside the wall's extent 20, because the
    source's check `!wall_pos < self.y` applies the bitwise complement
    to the offset, so it passes for every ordinary offset. -/
theorem c4_place_exit_accepts_out_of_bounds :
    ((World.new 20 20).place_exit .Up .South 100 0).2 = none ∧
    lookupA 0 ((World.new 20 20).place_exit .Up .South 100 0).1.exits =
      some (Exit.mk .Up .South 100) ∧
    ¬ (100 : Nat) < 20 := by decide

theorem check_pos_bounds_eq_none (w : World) (p : Pos) :
    w.check_pos_bounds p = none ↔ (p.x < w.x ∧ p.y < w.y) := by
  unfold World.check_pos_bounds
  by_cases h1 : p.x + 1 > w.x
  · simp only [h1, if_true, if_pos]
    constructor
    · intro h; exact Option.noConfusion h
    · intro h; omega
  · by_cases h2 : p.y + 1 > w.y
    · simp only [h1, h2, if_false, if_true, if_neg, if_pos]
      constructor
      · intro h; exact Option.noConfusion h
      · intro h; omega
    · simp only [h1, h2, if_neg]
      constructor
      · intro _; omega
      · intro _; rfl

theorem check_pos_bounds_out (w : World) (p : Pos)
    (h : ¬(p.x < w.x ∧ p.y < w.y)) :
    ∃ i j, w.check_pos_bounds p = some (Error.PosOutOfBounds i j) := by
  unfold World.check_pos_bounds
  by_cases h1 : p.x + 1 > w.x
  · exact ⟨p.x, w.x, by rw [if_pos h1]⟩
  · have h2 : p.y + 1 > w.y := by omega
    exact ⟨p.y, w.y, by rw [if_neg h1, if_pos h2]⟩

/-- C6: for every pair of endpoints where at least one is out of grid
    bounds, place_route_in_line fails with a PosOutOfBounds error and
    the world (in particular its tile grid) is left completely
    unmodified — both bounds checks run before any tile is written. -/
theorem c6_route_line_out_of_bounds (w : World) (a b : Pos)
    (h : ¬(a.x < w.x ∧ a.y < w.y) ∨ ¬(b.x < w.x ∧ b.y < w.y)) :
    (w.place_route_in_line a b).1 = w ∧
    isPosOutOfBoundsErr (w.place_route_in_line a b).2 = true := by
  unfold World.place_route_in_line
  rcases h with h | h
  · obtain ⟨i, j, hc⟩ := check_pos_bounds_out w a h
    rw [hc]
    exact ⟨rfl, rfl⟩
  · by_cases ha : a.x < w.x ∧ a.y < w.y
    · rw [(check_pos_bounds_eq_none w a).mpr ha]
      obtain ⟨i, j, hc⟩ := check_pos_bounds_out w b h
      rw [hc]
      exact ⟨rfl, rfl⟩
    · obtain ⟨i, j, hc⟩ := check_pos_bounds_out w a ha
      rw [hc]
      exact ⟨rfl, rfl⟩

/-- Witness for C6 at a concrete input: endpoint (20, 19) is out of
    bounds on a 20 x 20 grid. -/
theorem c6_route_line_out_of_bounds_witness :
    (¬(c5A.x < c5W.x ∧ c5A.y < c5W.y) ∨ ¬(c6B.x < c5W.x ∧ c6B.y < c5W.y)) ∧
    ((c5W.place_route_in_line c5A c6B).1 = c5W ∧
      isPosOutOfBoundsErr (c5W.place_route_in_line c5A c6B).2 = true) :=
  ⟨Or.inr (by decide),
   c6_route_line_out_of_bounds c5W c5A c6B (Or.inr (by decide))⟩

/-- C9: every plane created by spawn_plane_at_exit has destination
    Exit(1), regardless of which exit id or plane kind was passed: on
    success the freshly inserted plane (the head of the plane map) has
    destination Exit 1; no Airport or other Exit destination is ever
    assigned by the spawn path. -/
theorem c9_spawn_destination (w w' : World) (eid : Nat) (kind : PlaneKind)
    (h : w.spawn_plane_at_exit eid kind = .ok w') :
    (w'.planes.head?).map (fun q => q.2.destination) =
      some (Destination.Exit 1) := by
  unfold World.spawn_plane_at_exit at h
  cases hl : lookupA eid w.exits with
  | none => rw [hl] at h; exact SpawnResult.noConfusion h
  | some e =>
    simp only [hl] at h
    cases hd : e.plane_out_direction <;> simp only [hd] at h <;>
      first
        | exact SpawnResult.noConfusion h
        | (injection h with h2
           subst h2
           rfl)

/-- Witness for C9 at a concrete input. -/
theorem c9_spawn_destination_witness :
    c9World.spawn_plane_at_exit 0 .Small = .ok c9SpawnedWorld ∧
    (c9SpawnedWorld.planes.head?).map (fun q => q.2.destination) =
      some (Destination.Exit 1) :=
  ⟨by decide,
   c9_spawn_destination c9World c9SpawnedWorld 0 .Small (by decide)⟩

/-- C10: given that the exit id resolves to an exit record,
    spawn_plane_at_exit reaches the unimplemented branch and panics
    exactly when the exit's departure heading is diagonal; hence the
    spawn completes without a fault only for the four non-diagonal
    departure headings. -/
theorem c10_spawn_diagonal_panics (w : World) (eid : Nat) (kind : PlaneKind)
    (e : Exit) (hl : lookupA eid w.exits = some e) :
    (e.plane_out_direction.isDiagonal = true ↔
      w.spawn_plane_at_exit eid kind = .panicked) := by
  cases hd : e.plane_out_direction <;>
    simp [World.spawn_plane_at_exit, hl, hd, DirectionCardinal.isDiagonal]

/-- Witness for C10 at a concrete input: a NorthEast departure heading
    makes the spawn panic. -/
theorem c10_spawn_diagonal_panics_witness :
    lookupA 0 c10World.exits = some c10Exit ∧
    (c10Exit.plane_out_direction.isDiagonal = true ↔
      c10World.spawn_plane_at_exit 0 .Small = .panicked) :=
  ⟨by decide,
   c10_spawn_diagonal_panics c10World 0 .Small c10Exit (by decide)⟩

theorem tick_ticks (p : Plane) : ((p.tick).1).ticks = p.ticks + 1 := by
  simp only [Plane.tick]
  split
  · rfl
  · split <;> split <;> rfl

theorem tick_kind (p : Plane) : ((p.tick).1).kind = p.kind := by
  simp only [Plane.tick]
  split
  · rfl
  · split <;> split <;> rfl

theorem tickN_ticks (k : Nat) (p : Plane) :
    (tickN k p).ticks = p.ticks + k := by
  induction k generalizing p with
  | zero => rfl
  | succ n ih =>
    show (tickN n (p.tick).1).ticks = p.ticks + (n + 1)
    rw [ih, tick_ticks]
    omega

theorem tickN_kind (k : Nat) (p : Plane) : (tickN k p).kind = p.kind := by
  induction k generalizing p with
  | zero => rfl
  | succ n ih =>
    show (tickN n (p.tick).1).kind = p.kind
    rw [ih, tick_kind]

theorem tick_snd_eq (p : Plane) :
    (p.tick).2 = !(decide (p.ticks + 1 ≥ (match p.kind with
                                          | PlaneKind.Jet => 120
                                          | PlaneKind.Small => 50))) := by
  simp only [Plane.tick, Plane.out_of_fuel]
  split
  · next h => rw [h]; rfl
  · next h =>
    rw [Bool.not_eq_true] at h
    rw [h]
    rfl

theorem tick_fail_pos (p : Plane) (h : (p.tick).2 = false) :
    (p.tick).1.pos = p.pos := by
  simp only [Plane.tick] at h ⊢
  split at h
  · next hc => rw [if_pos hc]
  · simp at h

/-- C7: the elapsed-tick counter increments exactly once per tick call;
    a fresh Jet plane ticks successfully 119 times and fails
    fuel-exhausted on the 120th call (checked before moving: that call
    leaves the position unchanged), a fresh Small plane on the 50th;
    and tick_planes surfaces a failing plane tick as PlaneNoFuel. -/
theorem c7_fuel_ceiling :
    (∀ p : Plane, ((p.tick).1).ticks = p.ticks + 1) ∧
    (∀ p : Plane, p.kind = .Jet → p.ticks = 0 →
      (∀ k, k < 119 → ((tickN k p).tick).2 = true) ∧
      ((tickN 119 p).tick).2 = false ∧
      ((tickN 119 p).tick).1.pos = (tickN 119 p).pos) ∧
    (∀ p : Plane, p.kind = .Small → p.ticks = 0 →
      (∀ k, k < 49 → ((tickN k p).tick).2 = true) ∧
      ((tickN 49 p).tick).2 = false ∧
      ((tickN 49 p).tick).1.pos = (tickN 49 p).pos) ∧
    (∀ (w : World) (pid : Char) (p : Plane) (rest : List (Char × Plane)),
      w.planes = (pid, p) :: rest → (p.tick).2 = false →
      w.tick_planes =
        .ok { w with planes := updateA pid (p.tick).1 w.planes }
          (.PlaneNoFuel (p.tick).1)) := by
  refine ⟨tick_ticks, ?_, ?_, ?_⟩
  · intro p hk h0
    have hkind : ∀ k, (tickN k p).kind = PlaneKind.Jet := fun k => by
      rw [tickN_kind, hk]
    have ht : ∀ k, (tickN k p).ticks = k := fun k => by
      rw [tickN_ticks, h0]
      omega
    have hfail : ((tickN 119 p).tick).2 = false := by
      rw [tick_snd_eq, hkind, ht]
      decide
    refine ⟨?_, hfail, tick_fail_pos _ hfail⟩
    intro k hklt
    rw [tick_snd_eq, hkind, ht]
    show (!decide (k + 1 ≥ 120)) = true
    simp only [ge_iff_le, Bool.not_eq_true', decide_eq_false_iff_not, not_le]
    omega
  · intro p hk h0
    have hkind : ∀ k, (tickN k p).kind = PlaneKind.Small := fun k => by
      rw [tickN_kind, hk]
    have ht : ∀ k, (tickN k p).ticks = k := fun k => by
      rw [tickN_ticks, h0]
      omega
    have hfail : ((tickN 49 p).tick).2 = false := by
      rw [tick_snd_eq, hkind, ht]
      decide
    refine ⟨?_, hfail, tick_fail_pos _ hfail⟩
    intro k hklt
    rw [tick_snd_eq, hkind, ht]
    show (!decide (k + 1 ≥ 50)) = true
    simp only [ge_iff_le, Bool.not_eq_true', decide_eq_false_iff_not, not_le]
    omega
  · intro w pid p rest hpl hfail
    unfold World.tick_planes
    rw [hpl]
    simp only [tickAll, hfail, Bool.false_eq_true, if_false, hpl]

/-- Witness for C7 at concrete inputs: the 120th tick of a fresh Jet and
    the 50th tick of a fresh Small plane fail, and a world whose first
    plane fails its tick yields PlaneNoFuel. -/
theorem c7_fuel_ceiling_witness :
    ((c7Jet.tick).1).ticks = c7Jet.ticks + 1 ∧
    ((tickN 119 c7Jet).tick).2 = false ∧
    ((tickN 49 c7Small).tick).2 = false ∧
    c7World.tick_planes =
      .ok { c7World with planes := updateA 'a' (c7Dead.tick).1 c7World.planes }
        (.PlaneNoFuel (c7Dead.tick).1) :=
  ⟨c7_fuel_ceiling.1 c7Jet,
   (c7_fuel_ceiling.2.1 c7Jet rfl rfl).2.1,
   (c7_fuel_ceiling.2.2.1 c7Small rfl rfl).2.1,
   c7_fuel_ceiling.2.2.2 c7World 'a' c7Dead [] rfl (by decide)⟩

theorem exit_filter_empty_inner (w : World) (plane : Plane)
    (dir : DirectionGrid) (pp : Nat)
    (hf : w.exits.filter (fun pe => decide (pe.2.wall_direction = dir)) = []) :
    w.plane_exit_check_inner plane dir pp = (w, none) := by
  unfold World.plane_exit_check_inner
  rw [hf]
  rfl

theorem exit_check_if_empty (w : World) (plane : Plane) (dir : DirectionGrid)
    (pp : Nat) (c : Prop) [Decidable c]
    (hf : w.exits.filter (fun pe => decide (pe.2.wall_direction = dir)) = []) :
    (if c then w.plane_exit_check_inner plane dir pp else (w, none)) =
      (w, none) := by
  by_cases hc : c
  · rw [if_pos hc]
    exact exit_filter_empty_inner w plane dir pp hf
  · rw [if_neg hc]

theorem filter_single_dir_pos (eid : Nat) (e : Exit) (dir : DirectionGrid)
    (hw : e.wall_direction = dir) :
    List.filter (fun pe => decide (pe.2.wall_direction = dir)) [(eid, e)] =
      [(eid, e)] := by
  simp [List.filter_cons, hw]

theorem filter_single_dir_neg (eid : Nat) (e : Exit) (dir : DirectionGrid)
    (hw : ¬ e.wall_direction = dir) :
    List.filter (fun pe => decide (pe.2.wall_direction = dir)) [(eid, e)] =
      [] := by
  simp [List.filter_cons, hw]

theorem exit_check_single_wrong (w : World) (plane : Plane)
    (dir : DirectionGrid) (pp eid : Nat) (e : Exit)
    (hf : w.exits.filter (fun pe => decide (pe.2.wall_direction = dir)) =
      [(eid, e)])
    (hpos : e.wall_pos = pp) (hd : plane.destination = .Exit 1)
    (hne : ¬ 1 = eid) :
    w.plane_exit_check_inner plane dir pp = (w, some (plane, eid)) := by
  unfold World.plane_exit_check_inner
  rw [hf]
  simp only [exitCheckGo]
  rw [if_pos hpos, hd]
  simp [hne]

theorem exit_check_single_right (w : World) (plane : Plane)
    (dir : DirectionGrid) (pp : Nat) (e : Exit)
    (hf : w.exits.filter (fun pe => decide (pe.2.wall_direction = dir)) =
      [(1, e)])
    (hpos : e.wall_pos = pp) (hd : plane.destination = .Exit 1) :
    w.plane_exit_check_inner plane dir pp =
      ({ w with planes := removeKey plane.id w.planes }, none) := by
  unfold World.plane_exit_check_inner
  rw [hf]
  simp only [exitCheckGo]
  rw [if_pos hpos, hd]
  simp [exitCheckGo]

theorem removeKey_single (pid : Char) (p : Plane) (hid : pid = p.id) :
    removeKey p.id [(pid, p)] = [] := by
  subst hid
  simp [removeKey]

/-- C8: for a non-grace plane with destination Exit(1) sitting on a
    boundary cell whose wall and offset match the single registered
    exit, the exit pass of tick_planes yields the wrong-exit pair
    (plane, 2) when that exit's id is 2, and removes the plane (leaving
    the plane map empty) when the id is 1; and in a full tick,
    tick_planes on the concrete scenarios yields WrongExit(plane, 2)
    resp. removes the plane and yields Onging (the source's spelling of
    Ongoing). -/
theorem c8_wrong_and_right_exit (w : World) (pid : Char) (p : Plane)
    (eid : Nat) (e : Exit)
    (hpl : w.planes = [(pid, p)]) (hex : w.exits = [(eid, e)])
    (hid : pid = p.id) (hg : p.just_spawned = false)
    (hd : p.destination = .Exit 1) (hb : boundaryMatch w p e) :
    ((eid = 2 → w.planes_take_exits = (w, some (p, 2))) ∧
     (eid = 1 → w.planes_take_exits = ({ w with planes := [] }, none))) ∧
    (c8WrongWorld.tick_planes = .ok c8WrongAfter (.WrongExit c8Moved 2) ∧
     c8RightWorld.tick_planes = .ok c8RightAfter .Onging ∧
     c8RightAfter.planes = []) := by
  refine ⟨⟨?_, ?_⟩, by decide, by decide, by decide⟩
  · intro h2
    subst h2
    have htep : takeExitsPlane w p = (w, some (p, 2)) := by
      rcases hb with ⟨hc, hw, hoff⟩ | ⟨hc, hw, hoff⟩ | ⟨hc, hw, hoff⟩ |
        ⟨hc, hw, hoff⟩
      · have hinner : w.plane_exit_check_inner p .Up p.pos.x =
            (w, some (p, 2)) := by
          refine exit_check_single_wrong w p .Up p.pos.x 2 e ?_ hoff hd
            (by omega)
          rw [hex]
          exact filter_single_dir_pos 2 e .Up hw
        unfold takeExitsPlane
        rw [if_pos hc, hinner]
      · have h1 : (if p.pos.y = 0
            then w.plane_exit_check_inner p .Up p.pos.x
            else (w, none)) = (w, none) := by
          refine exit_check_if_empty w p .Up p.pos.x _ ?_
          rw [hex]
          exact filter_single_dir_neg 2 e .Up (by simp [hw])
        have hinner : w.plane_exit_check_inner p .Down p.pos.x =
            (w, some (p, 2)) := by
          refine exit_check_single_wrong w p .Down p.pos.x 2 e ?_ hoff hd
            (by omega)
          rw [hex]
          exact filter_single_dir_pos 2 e .Down hw
        unfold takeExitsPlane
        rw [h1]
        dsimp only
        rw [if_pos hc, hinner]
      · have h1 : (if p.pos.y = 0
            then w.plane_exit_check_inner p .Up p.pos.x
            else (w, none)) = (w, none) := by
          refine exit_check_if_empty w p .Up p.pos.x _ ?_
          rw [hex]
          exact filter_single_dir_neg 2 e .Up (by simp [hw])
        have h2 : (if p.pos.y = w.y
            then w.plane_exit_check_inner p .Down p.pos.x
            else (w, none)) = (w, none) := by
          refine exit_check_if_empty w p .Down p.pos.x _ ?_
          rw [hex]
          exact filter_single_dir_neg 2 e .Down (by simp [hw])
        have hinner : w.plane_exit_check_inner p .Left p.pos.y =
            (w, some (p, 2)) := by
          refine exit_check_single_wrong w p .Left p.pos.y 2 e ?_ hoff hd
            (by omega)
          rw [hex]
          exact filter_single_dir_pos 2 e .Left hw
        unfold takeExitsPlane
        rw [h1]
        dsimp only
        rw [h2]
        dsimp only
        rw [if_pos hc, hinner]
      · have h1 : (if p.pos.y = 0
            then w.plane_exit_check_inner p .Up p.pos.x
            else (w, none)) = (w, none) := by
          refine exit_check_if_empty w p .Up p.pos.x _ ?_
          rw [hex]
          exact filter_single_dir_neg 2 e .Up (by simp [hw])
        have h2 : (if p.pos.y = w.y
            then w.plane_exit_check_inner p .Down p.pos.x
            else (w, none)) = (w, none) := by
          refine exit_check_if_empty w p .Down p.pos.x _ ?_
          rw [hex]
          exact filter_single_dir_neg 2 e .Down (by simp [hw])
        have h3 : (if p.pos.x = 0
            then w.plane_exit_check_inner p .Left p.pos.y
            else (w, none)) = (w, none) := by
          refine exit_check_if_empty w p .Left p.pos.y _ ?_
          rw [hex]
          exact filter_single_dir_neg 2 e .Left (by simp [hw])
        have hinner : w.plane_exit_check_inner p .Right p.pos.y =
            (w, some (p, 2)) := by
          refine exit_check_single_wrong w p .Right p.pos.y 2 e ?_ hoff hd
            (by omega)
          rw [hex]
          exact filter_single_dir_pos 2 e .Right hw
        unfold takeExitsPlane
        rw [h1]
        dsimp only
        rw [h2]
        dsimp only
        rw [h3]
        dsimp only
        rw [if_pos hc, hinner]
    unfold World.planes_take_exits
    rw [hpl]
    simp only [takeExitsGo, hg, Bool.false_eq_true, if_false]
    rw [htep]
  · intro h1
    subst h1
    have hrk : removeKey p.id w.planes = [] := by
      rw [hpl]
      exact removeKey_single pid p hid
    have hw' : ({ w with planes := removeKey p.id w.planes } : World) =
        { w with planes := [] } := by
      rw [hrk]
    have hemp : ∀ (dir : DirectionGrid), ¬ e.wall_direction = dir →
        ({ w with planes := [] } : World).exits.filter
          (fun pe => decide (pe.2.wall_direction = dir)) = [] := by
      intro dir hne
      show w.exits.filter (fun pe => decide (pe.2.wall_direction = dir)) = []
      rw [hex]
      exact filter_single_dir_neg 1 e dir hne
    have hempW : ∀ (dir : DirectionGrid), ¬ e.wall_direction = dir →
        w.exits.filter (fun pe => decide (pe.2.wall_direction = dir)) = [] := by
      intro dir hne
      rw [hex]
      exact filter_single_dir_neg 1 e dir hne
    have htep : takeExitsPlane w p = ({ w with planes := [] }, none) := by
      rcases hb with ⟨hc, hw, hoff⟩ | ⟨hc, hw, hoff⟩ | ⟨hc, hw, hoff⟩ |
        ⟨hc, hw, hoff⟩
      · have hinner : w.plane_exit_check_inner p .Up p.pos.x =
            ({ w with planes := [] }, none) := by
          rw [← hw']
          refine exit_check_single_right w p .Up p.pos.x e ?_ hoff hd
          rw [hex]
          exact filter_single_dir_pos 1 e .Up hw
        unfold takeExitsPlane
        rw [if_pos hc, hinner]
        dsimp only
        rw [exit_check_if_empty _ p .Down p.pos.x _ (hemp .Down (by simp [hw]))]
        dsimp only
        rw [exit_check_if_empty _ p .Left p.pos.y _ (hemp .Left (by simp [hw]))]
        dsimp only
        rw [exit_check_if_empty _ p .Right p.pos.y _
          (hemp .Right (by simp [hw]))]
      · have hinner : w.plane_exit_check_inner p .Down p.pos.x =
            ({ w with planes := [] }, none) := by
          rw [← hw']
          refine exit_check_single_right w p .Down p.pos.x e ?_ hoff hd
          rw [hex]
          exact filter_single_dir_pos 1 e .Down hw
        unfold takeExitsPlane
        rw [exit_check_if_empty w p .Up p.pos.x _ (hempW .Up (by simp [hw]))]
        dsimp only
        rw [if_pos hc, hinner]
        dsimp only
        rw [exit_check_if_empty _ p .Left p.pos.y _ (hemp .Left (by simp [hw]))]
        dsimp only
        rw [exit_check_if_empty _ p .Right p.pos.y _
          (hemp .Right (by simp [hw]))]
      · have hinner : w.plane_exit_check_inner p .Left p.pos.y =
            ({ w with planes := [] }, none) := by
          rw [← hw']
          refine exit_check_single_right w p .Left p.pos.y e ?_ hoff hd
          rw [hex]
          exact filter_single_dir_pos 1 e .Left hw
        unfold takeExitsPlane
        rw [exit_check_if_empty w p .Up p.pos.x _ (hempW .Up (by simp [hw]))]
        dsimp only
        rw [exit_check_if_empty w p .Down p.pos.x _
          (hempW .Down (by simp [hw]))]
        dsimp only
        rw [if_pos hc, hinner]
        dsimp only
        rw [exit_check_if_empty _ p .Right p.pos.y _
          (hemp .Right (by simp [hw]))]
      · have hinner : w.plane_exit_check_inner p .Right p.pos.y =
            ({ w with planes := [] }, none) := by
          rw [← hw']
          refine exit_check_single_right w p .Right p.pos.y e ?_ hoff hd
          rw [hex]
          exact filter_single_dir_pos 1 e .Right hw
        unfold takeExitsPlane
        rw [exit_check_if_empty w p .Up p.pos.x _ (hempW .Up (by simp [hw]))]
        dsimp only
        rw [exit_check_if_empty w p .Down p.pos.x _
          (hempW .Down (by simp [hw]))]
        dsimp only
        rw [exit_check_if_empty w p .Left p.pos.y _
          (hempW .Left (by simp [hw]))]
        dsimp only
        rw [if_pos hc, hinner]
    unfold World.planes_take_exits
    rw [hpl]
    simp only [takeExitsGo, hg, Bool.false_eq_true, if_false]
    rw [htep]

/-- Witness for C8 at a concrete input: the exit-check step on a plane
    sitting at (5, 0) with destination Exit(1) and a registered exit id
    2 at Up offset 5 yields the wrong-exit pair. -/
theorem c8_wrong_and_right_exit_witness :
    (c8SitWorld.planes = [('a', c8SitPlane)] ∧
     c8SitWorld.exits = [(2, c8Exit)] ∧
     'a' = c8SitPlane.id ∧ c8SitPlane.just_spawned = false ∧
     c8SitPlane.destination = .Exit 1 ∧
     boundaryMatch c8SitWorld c8SitPlane c8Exit) ∧
    c8SitWorld.planes_take_exits = (c8SitWorld, some (c8SitPlane, 2)) :=
  ⟨⟨rfl, rfl, rfl, rfl, rfl, by decide⟩,
   (c8_wrong_and_right_exit c8SitWorld 'a' c8SitPlane 2 c8Exit rfl rfl rfl rfl
     rfl (by decide)).1.1 rfl⟩

theorem getD_set_self {α : Type} (l : List α) (i : Nat) (x d : α)
    (h : i < l.length) : (l.set i x).getD i d = x := by
  induction l generalizing i with
  | nil => simp at h
  | cons a t ih =>
    cases i with
    | zero => rfl
    | succ j =>
      have hj : j < t.length := by simpa using h
      simpa using ih j hj

theorem getD_set_of_ne {α : Type} (l : List α) (i j : Nat) (x d : α)
    (h : i ≠ j) : (l.set i x).getD j d = l.getD j d := by
  induction l generalizing i j with
  | nil => rfl
  | cons a t ih =>
    cases i with
    | zero =>
      cases j with
      | zero => exact absurd rfl h
      | succ m => rfl
    | succ n =>
      cases j with
      | zero => rfl
      | succ m => simpa using ih n m (by omega)

theorem tiles_getD_of_get? (l : List (List WorldTile)) (n : Nat)
    (row : List WorldTile) (h : l.get? n = some row) : l.getD n [] = row := by
  simp [List.getD, ← List.get?_eq_getElem?, h]

theorem tileAt_update2_self (w : World) (p : Pos) (t : WorldTile)
    (hwf : w.Wellformed) (hx : p.x < w.x) (hy : p.y < w.y) :
    tileAt { w with tiles := update2 w.tiles p t } p = t := by
  obtain ⟨hlen, hrows⟩ := hwf
  have hylen : p.y < w.tiles.length := by omega
  have hrow : w.tiles.get? p.y = some (w.tiles.get ⟨p.y, hylen⟩) :=
    List.get?_eq_get hylen
  have hmem : w.tiles.get ⟨p.y, hylen⟩ ∈ w.tiles := List.get_mem w.tiles _ _
  unfold tileAt update2
  rw [hrow]
  show ((w.tiles.set p.y ((w.tiles.get ⟨p.y, hylen⟩).set p.x t)).getD p.y
      []).getD p.x .Empty = t
  rw [getD_set_self _ _ _ _ hylen]
  rw [getD_set_self]
  rw [hrows _ hmem]
  exact hx

theorem tileAt_update2_of_ne (w : World) (p q : Pos) (t : WorldTile)
    (hne : q ≠ p) :
    tileAt { w with tiles := update2 w.tiles q t } p = tileAt w p := by
  unfold tileAt update2
  cases hrow : w.tiles.get? q.y with
  | none => rfl
  | some row =>
    show ((w.tiles.set q.y (row.set q.x t)).getD p.y []).getD p.x .Empty =
      (w.tiles.getD p.y []).getD p.x .Empty
    by_cases hyy : q.y = p.y
    · have hlen : q.y < w.tiles.length := by
        by_contra hcon
        rw [List.get?_eq_none.mpr (by omega)] at hrow
        exact Option.noConfusion hrow
      rw [← hyy]
      rw [getD_set_self _ _ _ _ hlen, tiles_getD_of_get? _ _ _ hrow]
      have hxx : q.x ≠ p.x := by
        intro hx
        exact hne
          (show Pos.mk q.x q.y = Pos.mk p.x p.y from by rw [hx, hyy])
      exact getD_set_of_ne _ _ _ _ _ hxx
    · rw [getD_set_of_ne _ _ _ _ _ hyy]

theorem update2_wellformed (w : World) (p : Pos) (t : WorldTile)
    (hwf : w.Wellformed) :
    ({ w with tiles := update2 w.tiles p t } : World).Wellformed := by
  obtain ⟨hlen, hrows⟩ := hwf
  unfold World.Wellformed update2
  cases hrow : w.tiles.get? p.y with
  | none => exact ⟨hlen, hrows⟩
  | some row =>
    have hmemrow : row ∈ w.tiles := by
      have hylen : p.y < w.tiles.length := by
        by_contra hcon
        rw [List.get?_eq_none.mpr (by omega)] at hrow
        exact Option.noConfusion hrow
      have := List.get?_eq_get hylen
      rw [this] at hrow
      injection hrow with hrow
      rw [← hrow]
      exact List.get_mem w.tiles _ _
    constructor
    · show (w.tiles.set p.y (row.set p.x t)).length = w.y
      rw [List.length_set]
      exact hlen
    · intro r hr
      rcases List.mem_or_eq_of_mem_set hr with h | h
      · exact hrows r h
      · subst h
        rw [List.length_set]
        exact hrows row hmemrow

theorem place_tile_inbounds (w : World) (t : WorldTile) (p : Pos)
    (hx : p.x < w.x) (hy : p.y < w.y) :
    w.place_tile t p = ({ w with tiles := update2 w.tiles p t }, none) := by
  unfold World.place_tile
  rw [(check_pos_bounds_eq_none w p).mpr ⟨hx, hy⟩]

theorem paint1_x (w : World) (p : Pos) : (paint1 w p).x = w.x := by
  unfold paint1 World.place_tile
  cases hc : w.check_pos_bounds p <;> rfl

theorem paint1_y (w : World) (p : Pos) : (paint1 w p).y = w.y := by
  unfold paint1 World.place_tile
  cases hc : w.check_pos_bounds p <;> rfl

theorem paint1_wellformed (w : World) (p : Pos) (hwf : w.Wellformed) :
    (paint1 w p).Wellformed := by
  unfold paint1 World.place_tile
  cases hc : w.check_pos_bounds p with
  | none => exact update2_wellformed w p .Route hwf
  | some e => exact hwf

theorem tileAt_paint1_self (w : World) (p : Pos) (hwf : w.Wellformed)
    (hx : p.x < w.x) (hy : p.y < w.y) :
    tileAt (paint1 w p) p = .Route := by
  unfold paint1
  rw [place_tile_inbounds w .Route p hx hy]
  exact tileAt_update2_self w p .Route hwf hx hy

theorem tileAt_paint1_of_ne (w : World) (p q : Pos) (hne : q ≠ p) :
    tileAt (paint1 w q) p = tileAt w p := by
  unfold paint1 World.place_tile
  cases hc : w.check_pos_bounds q with
  | none => exact tileAt_update2_of_ne w p q .Route hne
  | some e => rfl

theorem tileAt_paintRoutes_not_mem (ps : List Pos) :
    ∀ (w : World) (p : Pos), p ∉ ps →
      tileAt (paintRoutes w ps) p = tileAt w p := by
  induction ps with
  | nil =>
    intro w p _
    rfl
  | cons q ps ih =>
    intro w p hp
    show tileAt (paintRoutes (paint1 w q) ps) p = tileAt w p
    rw [ih (paint1 w q) p (fun hmem => hp (List.mem_cons_of_mem q hmem))]
    exact tileAt_paint1_of_ne w p q
      (fun he => hp (he ▸ List.mem_cons_self q ps))

theorem tileAt_paintRoutes_mem (ps : List Pos) :
    ∀ (w : World), w.Wellformed →
      (∀ q ∈ ps, q.x < w.x ∧ q.y < w.y) →
      ∀ p ∈ ps, tileAt (paintRoutes w ps) p = .Route := by
  induction ps with
  | nil =>
    intro w _ _ p hp
    exact absurd hp (List.not_mem_nil p)
  | cons q ps ih =>
    intro w hwf hbd p hp
    show tileAt (paintRoutes (paint1 w q) ps) p = .Route
    by_cases hmem : p ∈ ps
    · refine ih (paint1 w q) (paint1_wellformed w q hwf) ?_ p hmem
      intro r hr
      rw [paint1_x, paint1_y]
      exact hbd r (List.mem_cons_of_mem q hr)
    · have hpq : p = q := by
        rcases List.mem_cons.mp hp with h | h
        · exact h
        · exact absurd h hmem
      subst hpq
      rw [tileAt_paintRoutes_not_mem ps (paint1 w p) p hmem]
      exact tileAt_paint1_self w p hwf (hbd p (List.mem_cons_self p ps)).1
        (hbd p (List.mem_cons_self p ps)).2

theorem paintRoutes_cons (w : World) (p : Pos) (ps : List Pos) :
    paintRoutes w (p :: ps) = paintRoutes (paint1 w p) ps := rfl

theorem bresSteps_length (dxM dyM : Nat) :
    ∀ (n t : Nat) (d y : Int), (bresSteps dxM dyM n t d y).length = n := by
  intro n
  induction n with
  | zero => intro t d y; rfl
  | succ m ih =>
    intro t d y
    simp only [bresSteps]
    by_cases hd : (0:Int) ≤ d <;> simp [hd, ih]

theorem bresSteps_fst_le (dxM dyM : Nat) :
    ∀ (n t : Nat) (d y : Int), ∀ s ∈ bresSteps dxM dyM n t d y, t ≤ s.1 := by
  intro n
  induction n with
  | zero =>
    intro t d y s hs
    simp [bresSteps] at hs
  | succ m ih =>
    intro t d y s hs
    simp only [bresSteps] at hs
    rcases List.mem_cons.mp hs with rfl | h
    · exact le_refl t
    · by_cases hd : (0:Int) ≤ d
      · rw [if_pos hd] at h
        have := ih (t + 1) _ _ s h
        omega
      · rw [if_neg hd] at h
        have := ih (t + 1) _ _ s h
        omega

theorem bresSteps_pairwise_fst (dxM dyM : Nat) :
    ∀ (n t : Nat) (d y : Int),
      (bresSteps dxM dyM n t d y).Pairwise (fun s q => s.1 < q.1) := by
  intro n
  induction n with
  | zero => intro t d y; exact List.Pairwise.nil
  | succ m ih =>
    intro t d y
    simp only [bresSteps]
    refine List.Pairwise.cons ?_ ?_
    · intro q hq
      by_cases hd : (0:Int) ≤ d
      · rw [if_pos hd] at hq
        have := bresSteps_fst_le dxM dyM m (t + 1) _ _ q hq
        omega
      · rw [if_neg hd] at hq
        have := bresSteps_fst_le dxM dyM m (t + 1) _ _ q hq
        omega
    · by_cases hd : (0:Int) ≤ d
      · rw [if_pos hd]; exact ih (t + 1) _ _
      · rw [if_neg hd]; exact ih (t + 1) _ _

theorem bresInv_step_ge (dxM dyM t : Nat) (d y : Int) (hyx : dyM ≤ dxM)
    (h : BresInv dxM dyM t d y) (hd : 0 ≤ d) :
    BresInv dxM dyM (t + 1) (d - 2 * (dxM : Int) + 2 * (dyM : Int))
      (y + 1) := by
  obtain ⟨h1, h2, h3, h4⟩ := h
  have hd' : 0 ≤ 2 * (dyM : Int) * ((t : Int) + 1) - (dxM : Int) -
      2 * (dxM : Int) * y := h1 ▸ hd
  have hyx' : (dyM : Int) ≤ (dxM : Int) := by exact_mod_cast hyx
  refine ⟨?_, by omega, ?_, ?_⟩
  · rw [h1]
    push_cast
    ring
  · push_cast
    linarith [hd']
  · push_cast
    linarith [h4, hyx']

theorem bresInv_step_lt (dxM dyM t : Nat) (d y : Int)
    (h : BresInv dxM dyM t d y) (hd : ¬ 0 ≤ d) :
    BresInv dxM dyM (t + 1) (d + 2 * (dyM : Int)) y := by
  obtain ⟨h1, h2, h3, h4⟩ := h
  have hd' : 2 * (dyM : Int) * ((t : Int) + 1) - (dxM : Int) -
      2 * (dxM : Int) * y < 0 := by
    rw [← h1]
    omega
  have hy0 : (0:Int) ≤ (dyM : Int) := by positivity
  refine ⟨?_, h2, ?_, ?_⟩
  · rw [h1]
    push_cast
    ring
  · push_cast
    linarith [h3, hy0]
  · push_cast
    linarith [hd']

theorem bresSteps_bounds (dxM dyM : Nat) (hdx : 1 ≤ dxM) (hyx : dyM ≤ dxM) :
    ∀ (n t : Nat) (d y : Int), BresInv dxM dyM t d y → t + n = dxM + 1 →
      ∀ s ∈ bresSteps dxM dyM n t d y,
        t ≤ s.1 ∧ s.1 ≤ dxM ∧ 0 ≤ s.2 ∧ s.2 ≤ (dyM : Int) := by
  intro n
  induction n with
  | zero =>
    intro t d y _ _ s hs
    simp [bresSteps] at hs
  | succ m ih =>
    intro t d y hinv hsum s hs
    simp only [bresSteps] at hs
    rcases List.mem_cons.mp hs with rfl | h
    · obtain ⟨h1, h2, h3, h4⟩ := hinv
      refine ⟨le_refl _, by omega, h2, ?_⟩
      have htd : (t : Int) ≤ (dxM : Int) := by
        exact_mod_cast (show t ≤ dxM by omega)
      have hX : (0:Int) < 2 * (dxM : Int) := by
        have : (1:Int) ≤ (dxM : Int) := by exact_mod_cast hdx
        omega
      have hy0 : (0:Int) ≤ (dyM : Int) := by positivity
      by_contra hcon
      push_neg at hcon
      have hge : (dyM : Int) + 1 ≤ y := by omega
      have hmul : 2 * (dxM : Int) * ((dyM : Int) + 1) ≤ 2 * (dxM : Int) * y :=
        mul_le_mul_of_nonneg_left hge (le_of_lt hX)
      have hTY : 2 * (dyM : Int) * (t : Int) ≤
          2 * (dyM : Int) * (dxM : Int) :=
        mul_le_mul_of_nonneg_left htd (by positivity)
      linarith [h3, hmul, hTY, hX]
    · by_cases hd : (0:Int) ≤ d
      · rw [if_pos hd] at h
        have := ih (t + 1) _ _ (bresInv_step_ge dxM dyM t d y hyx hinv hd)
          (by omega) s h
        exact ⟨by omega, this.2.1, this.2.2.1, this.2.2.2⟩
      · rw [if_neg hd] at h
        have := ih (t + 1) _ _ (bresInv_step_lt dxM dyM t d y hinv hd)
          (by omega) s h
        exact ⟨by omega, this.2.1, this.2.2.1, this.2.2.2⟩

theorem bresSteps_last_mem (dxM dyM : Nat) (hdx : 1 ≤ dxM)
    (hyx : dyM ≤ dxM) :
    ∀ (n t : Nat) (d y : Int), BresInv dxM dyM t d y → t + n = dxM + 1 →
      1 ≤ n → (dxM, (dyM : Int)) ∈ bresSteps dxM dyM n t d y := by
  intro n
  induction n with
  | zero =>
    intro t d y _ _ h
    omega
  | succ m ih =>
    intro t d y hinv hsum _
    cases Nat.eq_zero_or_pos m with
    | inl hm0 =>
      subst hm0
      obtain ⟨h1, h2, h3, h4⟩ := hinv
      have htd : t = dxM := by omega
      subst htd
      have hX : (0:Int) < 2 * (t : Int) := by
        have : (1:Int) ≤ (t : Int) := by exact_mod_cast hdx
        omega
      have hy0 : (0:Int) ≤ (dyM : Int) := by positivity
      have hyle : y ≤ (dyM : Int) := by
        by_contra hcon
        push_neg at hcon
        have hge : (dyM : Int) + 1 ≤ y := by omega
        have hmul : 2 * (t : Int) * ((dyM : Int) + 1) ≤ 2 * (t : Int) * y :=
          mul_le_mul_of_nonneg_left hge (le_of_lt hX)
        linarith [h3, hmul, hX]
      have hley : (dyM : Int) ≤ y := by
        by_contra hcon
        push_neg at hcon
        have hge : y ≤ (dyM : Int) - 1 := by omega
        have hmul : 2 * (t : Int) * y ≤ 2 * (t : Int) * ((dyM : Int) - 1) :=
          mul_le_mul_of_nonneg_left hge (le_of_lt hX)
        linarith [h4, hmul, hX]
      have hy : y = (dyM : Int) := le_antisymm hyle hley
      simp only [bresSteps]
      rw [← hy]
      exact List.mem_cons_self _ _
    | inr hmpos =>
      simp only [bresSteps]
      by_cases hd : (0:Int) ≤ d
      · rw [if_pos hd]
        exact List.mem_cons_of_mem _
          (ih (t + 1) _ _ (bresInv_step_ge dxM dyM t d y hyx hinv hd)
            (by omega) (by omega))
      · rw [if_neg hd]
        exact List.mem_cons_of_mem _
          (ih (t + 1) _ _ (bresInv_step_lt dxM dyM t d y hinv hd)
            (by omega) (by omega))

theorem routeLoop_paint (a : Pos) (xx xy yx yy : Int) (dxM dyM : Nat) :
    ∀ (n t : Nat) (d y : Int) (w : World), w.Wellformed →
      (∀ s ∈ bresSteps dxM dyM n t d y,
        0 ≤ (a.x : Int) + (s.1 : Int) * xx + s.2 * yx ∧
        ((a.x : Int) + (s.1 : Int) * xx + s.2 * yx).toNat < w.x ∧
        0 ≤ (a.y : Int) + (s.1 : Int) * xy + s.2 * yy ∧
        ((a.y : Int) + (s.1 : Int) * xy + s.2 * yy).toNat < w.y) →
      routeLoop a xx xy yx yy dxM dyM n t d y w =
        (paintRoutes w ((bresSteps dxM dyM n t d y).map
          (fun s => pointPos a xx xy yx yy s.1 s.2)), none) := by
  intro n
  induction n with
  | zero =>
    intro t d y w _ _
    rfl
  | succ m ih =>
    intro t d y w hwf hbd
    have hhead := hbd (t, y) (by
      simp only [bresSteps]
      exact List.mem_cons_self _ _)
    have h1 : 0 ≤ (a.x : Int) + (t : Int) * xx + y * yx := hhead.1
    have h2 : ((a.x : Int) + (t : Int) * xx + y * yx).toNat < w.x :=
      hhead.2.1
    have h3 : 0 ≤ (a.y : Int) + (t : Int) * xy + y * yy := hhead.2.2.1
    have h4 : ((a.y : Int) + (t : Int) * xy + y * yy).toNat < w.y :=
      hhead.2.2.2
    simp only [routeLoop, bresSteps, List.map_cons, pointPos]
    rw [if_pos ⟨h1, h3⟩, place_tile_inbounds w .Route _ h2 h4]
    dsimp only
    rw [paintRoutes_cons,
      show ∀ (pt : Pos), paint1 w pt = (w.place_tile .Route pt).1 from
        fun _ => rfl]
    rw [place_tile_inbounds w .Route _ h2 h4]
    dsimp only
    by_cases hd : (0:Int) ≤ d
    · rw [if_pos hd, if_pos hd]
      refine ih (t + 1) _ (y + 1) _ (update2_wellformed w _ .Route hwf) ?_
      intro s hs
      have := hbd s (by
        simp only [bresSteps]
        rw [if_pos hd]
        exact List.mem_cons_of_mem _ hs)
      exact this
    · rw [if_neg hd, if_neg hd]
      refine ih (t + 1) _ y _ (update2_wellformed w _ .Route hwf) ?_
      intro s hs
      have := hbd s (by
        simp only [bresSteps]
        rw [if_neg hd]
        exact List.mem_cons_of_mem _ hs)
      exact this

theorem route_master (w : World) (a : Pos) (xx xy yx yy : Int)
    (dxM dyM : Nat) (hwf : w.Wellformed) (hyx : dyM ≤ dxM)
    (Hpt : ∀ (k : Nat) (m : Int), k ≤ dxM → 0 ≤ m → m ≤ (dyM : Int) →
      0 ≤ (a.x : Int) + (k : Int) * xx + m * yx ∧
      ((a.x : Int) + (k : Int) * xx + m * yx).toNat < w.x ∧
      0 ≤ (a.y : Int) + (k : Int) * xy + m * yy ∧
      ((a.y : Int) + (k : Int) * xy + m * yy).toNat < w.y)
    (Hinj : ∀ (k k' : Nat) (m m' : Int), k ≤ dxM → k' ≤ dxM →
      0 ≤ m → m ≤ (dyM : Int) → 0 ≤ m' → m' ≤ (dyM : Int) → k ≠ k' →
      pointPos a xx xy yx yy k m ≠ pointPos a xx xy yx yy k' m') :
    routeLoop a xx xy yx yy dxM dyM (dxM + 1) 0
        (2 * (dyM : Int) - (dxM : Int)) 0 w =
      (paintRoutes w (bresPts a xx xy yx yy dxM dyM), none) ∧
    pointPos a xx xy yx yy 0 0 ∈ bresPts a xx xy yx yy dxM dyM ∧
    pointPos a xx xy yx yy dxM (dyM : Int) ∈ bresPts a xx xy yx yy dxM dyM ∧
    (bresPts a xx xy yx yy dxM dyM).Nodup ∧
    (bresPts a xx xy yx yy dxM dyM).length = dxM + 1 ∧
    ∀ p ∈ bresPts a xx xy yx yy dxM dyM,
      tileAt (paintRoutes w (bresPts a xx xy yx yy dxM dyM)) p = .Route := by
  have hinv0 : 1 ≤ dxM →
      BresInv dxM dyM 0 (2 * (dyM : Int) - (dxM : Int)) 0 := by
    intro hpos
    have hX1 : (1:Int) ≤ (dxM : Int) := by exact_mod_cast hpos
    refine ⟨?_, le_refl 0, ?_, ?_⟩
    · push_cast
      ring
    · push_cast
      ring_nf
      positivity
    · push_cast
      ring_nf
      omega
  have hsteps0 : dxM = 0 → dyM = 0 →
      bresSteps dxM dyM (dxM + 1) 0 (2 * (dyM : Int) - (dxM : Int)) 0 =
        [(0, 0)] := by
    intro h0 hdy0
    subst h0
    subst hdy0
    rfl
  have hstepbd : ∀ s ∈ bresSteps dxM dyM (dxM + 1) 0
      (2 * (dyM : Int) - (dxM : Int)) 0,
      s.1 ≤ dxM ∧ 0 ≤ s.2 ∧ s.2 ≤ (dyM : Int) := by
    rcases Nat.eq_zero_or_pos dxM with h0 | hpos
    · have hdy0 : dyM = 0 := by omega
      intro s hs
      rw [hsteps0 h0 hdy0] at hs
      rcases List.mem_cons.mp hs with rfl | h
      · simp [h0, hdy0]
      · simp at h
    · intro s hs
      have := bresSteps_bounds dxM dyM hpos hyx (dxM + 1) 0 _ _
        (hinv0 hpos) (by omega) s hs
      exact ⟨this.2.1, this.2.2.1, this.2.2.2⟩
  have hptsbd : ∀ p ∈ bresPts a xx xy yx yy dxM dyM,
      p.x < w.x ∧ p.y < w.y := by
    intro p hp
    obtain ⟨s, hsmem, rfl⟩ := List.mem_map.mp hp
    obtain ⟨hk, hm0, hmd⟩ := hstepbd s hsmem
    have := Hpt s.1 s.2 hk hm0 hmd
    exact ⟨this.2.1, this.2.2.2⟩
  have hpaint : routeLoop a xx xy yx yy dxM dyM (dxM + 1) 0
      (2 * (dyM : Int) - (dxM : Int)) 0 w =
      (paintRoutes w (bresPts a xx xy yx yy dxM dyM), none) := by
    refine routeLoop_paint a xx xy yx yy dxM dyM (dxM + 1) 0 _ 0 w hwf ?_
    intro s hs
    obtain ⟨hk, hm0, hmd⟩ := hstepbd s hs
    exact Hpt s.1 s.2 hk hm0 hmd
  refine ⟨hpaint, ?_, ?_, ?_, ?_, ?_⟩
  · show pointPos a xx xy yx yy 0 0 ∈ bresPts a xx xy yx yy dxM dyM
    unfold bresPts
    simp only [bresSteps, List.map_cons]
    exact List.mem_cons_self _ _
  · rcases Nat.eq_zero_or_pos dxM with h0 | hpos
    · have hdy0 : dyM = 0 := by omega
      unfold bresPts
      rw [hsteps0 h0 hdy0, h0, hdy0]
      simp only [List.map_cons, List.map_nil]
      exact List.mem_cons_self _ _
    · have hmem := bresSteps_last_mem dxM dyM hpos hyx (dxM + 1) 0 _ 0
        (hinv0 hpos) (by omega) (by omega)
      exact List.mem_map_of_mem _ hmem
  · have hpw := bresSteps_pairwise_fst dxM dyM (dxM + 1) 0
      (2 * (dyM : Int) - (dxM : Int)) 0
    have hpw2 : (bresSteps dxM dyM (dxM + 1) 0
        (2 * (dyM : Int) - (dxM : Int)) 0).Pairwise
        (fun s q => pointPos a xx xy yx yy s.1 s.2 ≠
          pointPos a xx xy yx yy q.1 q.2) := by
      refine List.Pairwise.imp_of_mem ?_ hpw
      intro s q hs hq hlt
      obtain ⟨hk, hm0, hmd⟩ := hstepbd s hs
      obtain ⟨hk', hm0', hmd'⟩ := hstepbd q hq
      exact Hinj s.1 q.1 s.2 q.2 hk hk' hm0 hmd hm0' hmd' (by omega)
    exact List.pairwise_map.mpr hpw2
  · unfold bresPts
    rw [List.length_map, bresSteps_length]
  · intro p hp
    exact tileAt_paintRoutes_mem _ w hwf hptsbd p hp

/-- C5: for all bounds-valid endpoints A and B, place_route_in_line
    succeeds, the cells it paints with Route tiles are exactly
    linePoints A B, that list contains both A and B, has no duplicate
    cell, and its length is max(|Ax-Bx|, |Ay-By|) + 1; every cell of the
    list carries a Route tile in the resulting world. -/
theorem c5_route_line_paints (w : World) (a b : Pos) (hwf : w.Wellformed)
    (hax : a.x < w.x) (hay : a.y < w.y) (hbx : b.x < w.x) (hby : b.y < w.y) :
    w.place_route_in_line a b = (paintRoutes w (linePoints a b), none) ∧
    a ∈ linePoints a b ∧ b ∈ linePoints a b ∧
    (linePoints a b).Nodup ∧
    (linePoints a b).length =
      max ((b.x : Int) - (a.x : Int)).natAbs
        ((b.y : Int) - (a.y : Int)).natAbs + 1 ∧
    ∀ p ∈ linePoints a b,
      tileAt (w.place_route_in_line a b).1 p = .Route := by
  simp only [World.place_route_in_line, linePoints,
    (check_pos_bounds_eq_none w a).mpr ⟨hax, hay⟩,
    (check_pos_bounds_eq_none w b).mpr ⟨hbx, hby⟩]
  by_cases hcmp : ((b.x : Int) - (a.x : Int)).natAbs >
      ((b.y : Int) - (a.y : Int)).natAbs
  · rw [if_pos hcmp, if_pos hcmp]
    obtain ⟨hm1, hm2, hm3, hm4, hm5, hm6⟩ :=
      route_master w a
        (if (0:Int) < (b.x : Int) - (a.x : Int) then 1 else -1) 0 0
        (if (0:Int) < (b.y : Int) - (a.y : Int) then 1 else -1)
        ((b.x : Int) - (a.x : Int)).natAbs
        ((b.y : Int) - (a.y : Int)).natAbs
        hwf (le_of_lt hcmp)
        (by
          intro k m hk hm0 hmd
          by_cases hdx : (0:Int) < (b.x : Int) - (a.x : Int) <;>
            by_cases hdy : (0:Int) < (b.y : Int) - (a.y : Int) <;>
            simp only [hdx, hdy, ite_true, ite_false] <;>
            omega)
        (by
          intro k k' m m' hk hk' hm0 hmd hm0' hmd' hne heq
          have hx := congrArg Pos.x heq
          simp only [pointPos] at hx
          by_cases hdx : (0:Int) < (b.x : Int) - (a.x : Int) <;>
            simp only [hdx, ite_true, ite_false] at hx <;>
            omega)
    have hA : pointPos a
        (if (0:Int) < (b.x : Int) - (a.x : Int) then 1 else -1) 0 0
        (if (0:Int) < (b.y : Int) - (a.y : Int) then 1 else -1) 0 0 = a := by
      simp only [pointPos, Nat.cast_zero, zero_mul, mul_zero, add_zero,
        Int.toNat_natCast]
    have hB : pointPos a
        (if (0:Int) < (b.x : Int) - (a.x : Int) then 1 else -1) 0 0
        (if (0:Int) < (b.y : Int) - (a.y : Int) then 1 else -1)
        ((b.x : Int) - (a.x : Int)).natAbs
        ((((b.y : Int) - (a.y : Int)).natAbs : Nat) : Int) = b := by
      obtain ⟨bx, byy⟩ := b
      simp only [pointPos, Pos.mk.injEq]
      by_cases hdx : (0:Int) < (bx : Int) - (a.x : Int) <;>
        by_cases hdy : (0:Int) < (byy : Int) - (a.y : Int) <;>
        simp only [hdx, hdy, ite_true, ite_false] <;>
        omega
    refine ⟨hm1, ?_, ?_, hm4, ?_, ?_⟩
    · rw [hA] at hm2
      exact hm2
    · rw [hB] at hm3
      exact hm3
    · rw [hm5, Nat.max_eq_left (le_of_lt hcmp)]
    · intro p hp
      rw [hm1]
      exact hm6 p hp
  · rw [if_neg hcmp, if_neg hcmp]
    have hyx : ((b.x : Int) - (a.x : Int)).natAbs ≤
        ((b.y : Int) - (a.y : Int)).natAbs := by omega
    obtain ⟨hm1, hm2, hm3, hm4, hm5, hm6⟩ :=
      route_master w a 0
        (if (0:Int) < (b.y : Int) - (a.y : Int) then 1 else -1)
        (if (0:Int) < (b.x : Int) - (a.x : Int) then 1 else -1) 0
        ((b.y : Int) - (a.y : Int)).natAbs
        ((b.x : Int) - (a.x : Int)).natAbs
        hwf hyx
        (by
          intro k m hk hm0 hmd
          by_cases hdx : (0:Int) < (b.x : Int) - (a.x : Int) <;>
            by_cases hdy : (0:Int) < (b.y : Int) - (a.y : Int) <;>
            simp only [hdx, hdy, ite_true, ite_false] <;>
            omega)
        (by
          intro k k' m m' hk hk' hm0 hmd hm0' hmd' hne heq
          have hy := congrArg Pos.y heq
          simp only [pointPos] at hy
          by_cases hdy : (0:Int) < (b.y : Int) - (a.y : Int) <;>
            simp only [hdy, ite_true, ite_false] at hy <;>
            omega)
    have hA : pointPos a 0
        (if (0:Int) < (b.y : Int) - (a.y : Int) then 1 else -1)
        (if (0:Int) < (b.x : Int) - (a.x : Int) then 1 else -1) 0 0 0 = a := by
      simp only [pointPos, Nat.cast_zero, zero_mul, mul_zero, add_zero,
        Int.toNat_natCast]
    have hB : pointPos a 0
        (if (0:Int) < (b.y : Int) - (a.y : Int) then 1 else -1)
        (if (0:Int) < (b.x : Int) - (a.x : Int) then 1 else -1) 0
        ((b.y : Int) - (a.y : Int)).natAbs
        ((((b.x : Int) - (a.x : Int)).natAbs : Nat) : Int) = b := by
      obtain ⟨bx, byy⟩ := b
      simp only [pointPos, Pos.mk.injEq]
      by_cases hdx : (0:Int) < (bx : Int) - (a.x : Int) <;>
        by_cases hdy : (0:Int) < (byy : Int) - (a.y : Int) <;>
        simp only [hdx, hdy, ite_true, ite_false] <;>
        omega
    refine ⟨hm1, ?_, ?_, hm4, ?_, ?_⟩
    · rw [hA] at hm2
      exact hm2
    · rw [hB] at hm3
      exact hm3
    · rw [hm5, Nat.max_eq_right hyx]
    · intro p hp
      rw [hm1]
      exact hm6 p hp

/-- Witness for C5 at a concrete input: the 20 x 20 diagonal from (0, 0)
    to (19, 19). -/
theorem c5_route_line_paints_witness :
    (c5W.Wellformed ∧ c5A.x < c5W.x ∧ c5A.y < c5W.y ∧ c5B.x < c5W.x ∧
      c5B.y < c5W.y) ∧
    (c5W.place_route_in_line c5A c5B =
      (paintRoutes c5W (linePoints c5A c5B), none) ∧
     c5A ∈ linePoints c5A c5B ∧ c5B ∈ linePoints c5A c5B ∧
     (linePoints c5A c5B).Nodup ∧
     (linePoints c5A c5B).length =
       max ((c5B.x : Int) - (c5A.x : Int)).natAbs
         ((c5B.y : Int) - (c5A.y : Int)).natAbs + 1 ∧
     ∀ p ∈ linePoints c5A c5B,
       tileAt (c5W.place_route_in_line c5A c5B).1 p = .Route) :=
  ⟨⟨by decide, by decide, by decide, by decide, by decide⟩,
   c5_route_line_paints c5W c5A c5B (by decide) (by decide) (by decide)
     (by decide) (by decide)⟩

end Atc
